import Mathlib

/-!
Shallow embedding of `src/fabfile.py`, a Fabric task-runner script that
orchestrates external toolchain invocations (MSBuild, NuGet, NUnit) and
start/stop shell scripts for a set of C# projects.

The script has no algorithmic core: every task is a sequence of
`local(cmd)` shell invocations and `shutil.rmtree` deletions.  We model an
execution as the list of external effects it emits (`Trace`) together with
a Bool recording whether it completed without an uncaught exception.
Failures of the external world are modelled by an oracle `Env`:
`shFails cmd` says whether the shell invocation `local(cmd)` raises
(non-zero exit status), and `rmFails path` says whether
`shutil.rmtree(path)` would raise (e.g. the directory is absent) when
errors are not ignored.

`os.path.join` is modelled with the Windows separator (the script's tool
paths are Windows paths and all joined components are relative, non-empty
and free of trailing separators, so `ntpath.join` is plain concatenation
with a single backslash).
-/

/-- An externally observable effect of the script:
a shell invocation `local(cmd)`, or a `shutil.rmtree(path, ignore_errors=...)` call. -/
inductive Event where
  | sh (cmd : String) : Event
  | rmtree (path : String) (ignoreErrors : Bool) : Event
deriving DecidableEq

/-- The trace of external effects emitted by one task execution. -/
abbrev Trace := List Event

/-- Oracle for the external world: which shell commands fail (raise) and
which directory removals would fail if errors were not ignored. -/
structure Env where
  shFails : String → Bool
  rmFails : String → Bool

/-- `local(cmd)`: emits the invocation and raises iff the command fails. -/
def localCmd (env : Env) (cmd : String) : Trace × Bool :=
  ([Event.sh cmd], !env.shFails cmd)

/-- `shutil.rmtree(path, ignore_errors=ig)`: emits the removal attempt and
raises iff removal fails and errors are not ignored. -/
def rmtreeCall (env : Env) (path : String) (ignoreErrors : Bool) : Trace × Bool :=
  ([Event.rmtree path ignoreErrors], !(env.rmFails path && !ignoreErrors))

/-- Python sequencing of two statements: if the first raises, the second
never runs and the exception propagates; otherwise both traces accumulate. -/
def chain (a b : Trace × Bool) : Trace × Bool :=
  if a.2 then (a.1 ++ b.1, b.2) else a

/-- A `for` loop over already-determined iteration bodies: run each in
order, aborting at the first body that raises. -/
def runSeq : List (Trace × Bool) → Trace × Bool
  | [] => ([], true)
  | a :: rest => chain a (runSeq rest)

/-- Python `try: body except: pass`: the body's effects happen up to the
point of the exception, and the exception is discarded. -/
def caught (a : Trace × Bool) : Trace × Bool :=
  (a.1, true)

/-- `os.path.join` for the cases appearing in the script (Windows
separator, second component relative and first without trailing slash). -/
def os_path_join (a b : String) : String :=
  a ++ "\\" ++ b

-- global settings of fabfile.py (the module-level defaults)

def ms_build_path : String := "C:\\Program Files (x86)\\MSBuild\\14.0\\Bin"

def nunit_path : String := "C:\\Program Files (x86)\\NUnit.org\\nunit-console"

def nuget_path : String := "C:\\Program Files (x86)\\NuGet"

def impl_projects : List String :=
  ["MultiClientConsole", "ServerConsole", "OfficeConsole", "UaclServer", "UaclClient", "UaclUtils"]

def test_projects : List String :=
  ["TestServerConsole", "TestOfficeConsole", "TestUaclClient", "TestUaclUtils"]

def projects : List String := impl_projects ++ test_projects

def solution : String := "ua_utilities"

/-- The body of `cmd_add` in `ms_build`: append ` cmd` when `cmd` is truthy
(a non-empty string), else leave the command unchanged. -/
def cmd_add (build_cmd cmd : String) : String :=
  if cmd == "" then build_cmd else build_cmd ++ " " ++ cmd

/-- The command string constructed by `ms_build(solution, target, config, more)`:
the quoted MSBuild path, then `more`, then `/t:<target>`, then (when `config`
is truthy) `/p:Configuration=<config>`, then `<solution>.sln`. -/
def ms_build_cmd (sol target : String) (config : Option String) (more : String) : String :=
  let msb := os_path_join ms_build_path "MSBuild.exe"
  let c0 := "\"" ++ msb ++ "\""
  let c1 := cmd_add c0 more
  let c2 := cmd_add c1 ("/t:" ++ target)
  let c3 := match config with
    | some cfg => if cfg == "" then c2 else cmd_add c2 ("/p:Configuration=" ++ cfg)
    | none => c2
  cmd_add c3 (sol ++ ".sln")

/-- `ms_build`: construct the build command and pass it to the shell. -/
def ms_build (env : Env) (sol target : String) (config : Option String) (more : String) :
    Trace × Bool :=
  localCmd env (ms_build_cmd sol target config more)

-- the tasks

def start (env : Env) : Trace × Bool :=
  localCmd env "tools\\start.bat"

def start_sc (env : Env) : Trace × Bool :=
  localCmd env "tools\\start_application.bat ServerConsole"

def start_oc (env : Env) : Trace × Bool :=
  localCmd env "tools\\start_application.bat OfficeConsole"

def start_mcc (env : Env) : Trace × Bool :=
  localCmd env "tools\\start_application.bat MultiClientConsole"

def stop (env : Env) : Trace × Bool :=
  localCmd env "tools\\stop.bat"

def build (env : Env) : Trace × Bool :=
  ms_build env solution "Build" (some "Debug") "/m"

def release (env : Env) : Trace × Bool :=
  ms_build env solution "Build" (some "Release") "/m"

/-- `clean`: MSBuild with target `Clean`, then for every project remove its
`obj` and `bin` subdirectories with `ignore_errors=True`. -/
def clean (env : Env) : Trace × Bool :=
  chain (ms_build env solution "Clean" none "/m")
    (runSeq (projects.flatMap (fun p =>
      ["obj", "bin"].map (fun sf => rmtreeCall env (os_path_join p sf) true))))

/-- The restore command issued by `update_packages` for one project. -/
def nuget_restore_cmd (p : String) : String :=
  "\"" ++ os_path_join nuget_path "nuget.exe" ++ "\" install -OutputDirectory packages "
    ++ os_path_join p "packages.config"

/-- `update_packages`: one NuGet restore invocation per project, in list order. -/
def update_packages (env : Env) : Trace × Bool :=
  runSeq (projects.map (fun p => localCmd env (nuget_restore_cmd p)))

def update_env (env : Env) : Trace × Bool :=
  update_packages env

def rebuild (env : Env) : Trace × Bool :=
  chain (clean env) (chain (update_env env) (build env))

def restart (env : Env) : Trace × Bool :=
  chain (stop env) (chain (rebuild env) (start env))

/-- The command string issued by `test_impl(path_to_dll)`: the quoted NUnit
console path applied to `<path_to_dll>.dll`. -/
def nunit_cmd (path_to_dll : String) : String :=
  "\"" ++ os_path_join nunit_path "nunit3-console.exe" ++ "\" " ++ path_to_dll ++ ".dll"

/-- `test_impl(path_to_dll)`: run the NUnit console on `<path_to_dll>.dll`. -/
def test_impl (env : Env) (path_to_dll : String) : Trace × Bool :=
  localCmd env (nunit_cmd path_to_dll)

/-- The dll path (without extension) used by `test` for test project `t`:
`os.path.join('.', t, 'bin', 'Debug')` joined with `t`. -/
def test_dll_path (t : String) : String :=
  os_path_join (os_path_join (os_path_join (os_path_join "." t) "bin") "Debug") t

/-- `test`: start the server console, then run every test project's
assembly inside a `try`/bare-`except`/`pass`, then stop. -/
def test (env : Env) : Trace × Bool :=
  chain (start_sc env)
    (chain (caught (runSeq (test_projects.map (fun t => test_impl env (test_dll_path t)))))
      (stop env))

-- startup configuration loading (lines 10-13 and 18-20 of fabfile.py)

/-- The three tool-path module constants. -/
structure ToolPaths where
  ms_build_path : String
  nunit_path : String
  nuget_path : String
deriving DecidableEq

/-- The defaults assigned at module level. -/
def default_tool_paths : ToolPaths :=
  ⟨ms_build_path, nunit_path, nuget_path⟩

/-- What an optional `fabfile_local` module may export: any subset of the
three tool-path constants. -/
structure LocalOverrides where
  ms_build_path : Option String
  nunit_path : Option String
  nuget_path : Option String

/-- The `try: from fabfile_local import * except ImportError: pass` block:
if the module is absent (`none`) the import error is swallowed and the
defaults stand; if present, each name it exports overrides the default. -/
def startup_tool_paths : Option LocalOverrides → ToolPaths
  | none => default_tool_paths
  | some o =>
    ⟨o.ms_build_path.getD default_tool_paths.ms_build_path,
     o.nunit_path.getD default_tool_paths.nunit_path,
     o.nuget_path.getD default_tool_paths.nuget_path⟩

-- substring helpers (for claims about command-string segments)

/-- Whether `pat` is a prefix of `l` (character lists). -/
def listHasPre : List Char → List Char → Bool
  | _, [] => true
  | [], _ :: _ => false
  | c :: cs, d :: ds => c == d && listHasPre cs ds

/-- Whether `pat` occurs contiguously inside `l`. -/
def listHasSub (pat : List Char) : List Char → Bool
  | [] => pat.isEmpty
  | c :: rest => listHasPre (c :: rest) pat || listHasSub pat rest

/-- Whether the string `pat` occurs contiguously inside `s`. -/
def strHasSub (s pat : String) : Bool :=
  listHasSub pat.toList s.toList

-- concrete environments used as witnesses and counterexamples

/-- An external world in which every shell command succeeds and every
directory removal would succeed. -/
def env0 : Env := ⟨fun _ => false, fun _ => false⟩

/-- An external world in which exactly the server-console startup script fails. -/
def envStartFail : Env :=
  ⟨fun c => c == "tools\\start_application.bat ServerConsole", fun _ => false⟩

/-- An external world in which every NUnit invocation fails and everything
else succeeds. -/
def envTestsFail : Env :=
  ⟨fun c => strHasSub c "nunit3-console.exe", fun _ => false⟩

/-- An external world in which exactly the stop script fails. -/
def envStopFail : Env :=
  ⟨fun c => c == "tools\\stop.bat", fun _ => false⟩

/-- An external world in which exactly the NuGet restore for project
OfficeConsole fails. -/
def envNugetFail : Env :=
  ⟨fun c => c == nuget_restore_cmd "OfficeConsole", fun _ => false⟩

-- expected traces appearing in theorem statements

/-- The removal attempts `clean` performs after the MSBuild Clean step:
for every project, its obj directory then its bin directory, with errors
ignored. -/
def clean_rm_trace : Trace :=
  projects.flatMap (fun p =>
    [Event.rmtree (os_path_join p "obj") true, Event.rmtree (os_path_join p "bin") true])

/-- The trace of a fully successful `update_packages`: one restore
invocation per project, in list order. -/
def restore_trace : Trace :=
  projects.map (fun p => Event.sh (nuget_restore_cmd p))

-- general lemmas about the execution model

theorem runSeq_local_ok (env : Env) (cmds : List String)
    (h : ∀ c ∈ cmds, env.shFails c = false) :
    runSeq (cmds.map (localCmd env)) = (cmds.map Event.sh, true) := by
  induction cmds with
  | nil => rfl
  | cons c rest ih =>
    have hc : env.shFails c = false := h c (List.mem_cons_self c rest)
    have ih' := ih (fun d hd => h d (List.mem_cons_of_mem c hd))
    simp [runSeq, localCmd, hc, chain, ih']

theorem runSeq_local_abort (env : Env) (pre post : List String) (bad : String)
    (hpre : ∀ c ∈ pre, env.shFails c = false) (hbad : env.shFails bad = true) :
    runSeq ((pre ++ bad :: post).map (localCmd env))
      = (pre.map Event.sh ++ [Event.sh bad], false) := by
  induction pre with
  | nil =>
    simp only [List.nil_append, List.map_cons, runSeq]
    rw [localCmd, hbad]
    simp [chain]
  | cons c rest ih =>
    have hc : env.shFails c = false := hpre c (List.mem_cons_self c rest)
    have ih' := ih (fun d hd => hpre d (List.mem_cons_of_mem c hd))
    show chain (localCmd env c) (runSeq ((rest ++ bad :: post).map (localCmd env)))
      = (Event.sh c :: (rest.map Event.sh ++ [Event.sh bad]), false)
    rw [ih', localCmd, hc]
    simp [chain]

theorem chain_fst_subset (a b : Trace × Bool) :
    ∀ e ∈ (chain a b).1, e ∈ a.1 ∨ e ∈ b.1 := by
  intro e he
  by_cases h : a.2 = true
  · rw [chain, if_pos h] at he
    exact List.mem_append.1 he
  · rw [chain, if_neg h] at he
    exact Or.inl he

theorem runSeq_local_trace_mem (env : Env) (cmds : List String) :
    ∀ e ∈ (runSeq (cmds.map (localCmd env))).1, e ∈ cmds.map Event.sh := by
  induction cmds with
  | nil => intro e he; simp [runSeq] at he
  | cons c rest ih =>
    intro e he
    have he' : e ∈ (chain (localCmd env c) (runSeq (rest.map (localCmd env)))).1 := he
    rw [List.map_cons]
    rcases chain_fst_subset _ _ e he' with h1 | h1
    · have h2 : e ∈ [Event.sh c] := h1
      rcases List.mem_singleton.1 h2 with rfl
      exact List.mem_cons_self _ _
    · exact List.mem_cons_of_mem _ (ih e h1)

theorem runSeq_rm_pairs (env : Env) (ps : List String) :
    runSeq (ps.flatMap (fun p =>
        ["obj", "bin"].map (fun sf => rmtreeCall env (os_path_join p sf) true)))
      = (ps.flatMap (fun p =>
          [Event.rmtree (os_path_join p "obj") true,
           Event.rmtree (os_path_join p "bin") true]), true) := by
  induction ps with
  | nil => rfl
  | cons p rest ih =>
    show chain (rmtreeCall env (os_path_join p "obj") true)
        (chain (rmtreeCall env (os_path_join p "bin") true)
          (runSeq (rest.flatMap (fun q =>
            ["obj", "bin"].map (fun sf => rmtreeCall env (os_path_join q sf) true)))))
      = (Event.rmtree (os_path_join p "obj") true ::
          Event.rmtree (os_path_join p "bin") true ::
            rest.flatMap (fun q =>
              [Event.rmtree (os_path_join q "obj") true,
               Event.rmtree (os_path_join q "bin") true]),
        true)
    rw [ih]
    simp [rmtreeCall, chain]

theorem test_trace_shape (env : Env)
    (h : env.shFails "tools\\start_application.bat ServerConsole" = false) :
    (test env).1 = Event.sh "tools\\start_application.bat ServerConsole"
      :: ((runSeq ((test_projects.map (fun t => nunit_cmd (test_dll_path t))).map
            (localCmd env))).1
          ++ [Event.sh "tools\\stop.bat"]) := by
  have hloop : test_projects.map (fun t => test_impl env (test_dll_path t))
      = (test_projects.map (fun t => nunit_cmd (test_dll_path t))).map (localCmd env) := by
    rw [List.map_map]
    rfl
  rw [test, hloop, start_sc, localCmd, h, stop, localCmd]
  simp [chain, caught]

-- claim theorems

/-- C2: for solution ua_utilities and config Debug, the command constructed
by ms_build and passed to the shell by the build task is exactly the quoted
MSBuild executable path, then /m, then /t:Build, then /p:Configuration=Debug,
then ua_utilities.sln, in that order, separated by single spaces. -/
theorem build_command_exact (env : Env) :
    ms_build_cmd solution "Build" (some "Debug") "/m"
      = "\"C:\\Program Files (x86)\\MSBuild\\14.0\\Bin\\MSBuild.exe\" /m /t:Build /p:Configuration=Debug ua_utilities.sln"
    ∧ (build env).1
      = [Event.sh "\"C:\\Program Files (x86)\\MSBuild\\14.0\\Bin\\MSBuild.exe\" /m /t:Build /p:Configuration=Debug ua_utilities.sln"] :=
  ⟨rfl, rfl⟩

/-- C7: with config Release the constructed command contains the segment
/p:Configuration=Release; for the clean invocation (target Clean, no config)
the constructed command contains no /p:Configuration= segment at all.  The
release task passes exactly the Release command to the shell, and the first
event of clean is the shell invocation of the Clean command. -/
theorem ms_build_config_segment (env : Env) :
    strHasSub (ms_build_cmd solution "Build" (some "Release") "/m") "/p:Configuration=Release"
      = true
    ∧ strHasSub (ms_build_cmd solution "Clean" none "/m") "/p:Configuration=" = false
    ∧ (release env).1 = [Event.sh (ms_build_cmd solution "Build" (some "Release") "/m")]
    ∧ (clean env).1.head? = some (Event.sh (ms_build_cmd solution "Clean" none "/m")) := by
  refine ⟨rfl, rfl, rfl, ?_⟩
  by_cases h : (ms_build env solution "Clean" none "/m").2 = true
  · rw [clean, chain, if_pos h]
    rfl
  · rw [clean, chain, if_neg h]
    rfl

/-- C9: loading the optional local override module is a silent no-op when
the module is absent, leaving the default tool paths in effect, and when
present each constant it exports overrides the corresponding default. -/
theorem startup_tool_paths_spec :
    startup_tool_paths none = default_tool_paths
    ∧ startup_tool_paths (some ⟨none, none, none⟩) = default_tool_paths
    ∧ ∀ o : LocalOverrides, startup_tool_paths (some o)
        = ⟨o.ms_build_path.getD ms_build_path,
           o.nunit_path.getD nunit_path,
           o.nuget_path.getD nuget_path⟩ :=
  ⟨rfl, rfl, fun _ => rfl⟩

/-- C4: rebuild runs clean, then update_env, then build, in that order, and
restart runs stop, then rebuild, then start, in that order; in both
sequences a failing earlier step aborts the sequence, so none of the later
steps run (their traces contain no further events). -/
theorem rebuild_restart_sequencing (env : Env) :
    rebuild env = (cond (clean env).2
        (cond (update_env env).2
          ((clean env).1 ++ ((update_env env).1 ++ (build env).1), (build env).2)
          ((clean env).1 ++ (update_env env).1, false))
        (clean env))
    ∧ restart env = (cond (stop env).2
        (cond (rebuild env).2
          ((stop env).1 ++ ((rebuild env).1 ++ (start env).1), (start env).2)
          ((stop env).1 ++ (rebuild env).1, false))
        (stop env)) := by
  constructor
  · rw [rebuild]
    cases h1 : (clean env).2
    · simp [chain, h1]
    · cases h2 : (update_env env).2 <;> simp [chain, h1, h2]
  · rw [restart]
    cases h1 : (stop env).2
    · simp [chain, h1]
    · cases h2 : (rebuild env).2 <;> simp [chain, h1, h2]

/-- C3: when the MSBuild Clean invocation succeeds, clean first emits that
shell invocation and then attempts, for every project in the combined
implementation and test project list, exactly one recursive removal of the
obj subdirectory and exactly one of the bin subdirectory, all with errors
ignored, and completes successfully regardless of which removals would
fail (for example because the directory is absent). -/
theorem clean_spec (env : Env)
    (h : env.shFails (ms_build_cmd solution "Clean" none "/m") = false) :
    clean env = (Event.sh (ms_build_cmd solution "Clean" none "/m") :: clean_rm_trace, true)
    ∧ ∀ p ∈ projects,
        clean_rm_trace.count (Event.rmtree (os_path_join p "obj") true) = 1
        ∧ clean_rm_trace.count (Event.rmtree (os_path_join p "bin") true) = 1 := by
  constructor
  · rw [clean, runSeq_rm_pairs, ms_build, localCmd, h]
    simp [chain, clean_rm_trace]
  · decide

/-- C3 witness: in the all-success world, clean emits the Clean build
invocation followed by the twenty removal attempts and succeeds. -/
theorem clean_spec_witness :
    env0.shFails (ms_build_cmd solution "Clean" none "/m") = false
    ∧ clean env0 = (Event.sh (ms_build_cmd solution "Clean" none "/m") :: clean_rm_trace, true) :=
  ⟨rfl, (clean_spec env0 rfl).1⟩

/-- C6: when every restore invocation succeeds, update_packages issues
exactly one NuGet restore invocation per project in the full project list,
in list order, each referencing that project's own packages.config. -/
theorem update_packages_one_restore_per_project (env : Env)
    (h : ∀ p ∈ projects, env.shFails (nuget_restore_cmd p) = false) :
    update_packages env = (restore_trace, true)
    ∧ ∀ p ∈ projects, restore_trace.count (Event.sh (nuget_restore_cmd p)) = 1 := by
  constructor
  · have hmap : projects.map (fun p => localCmd env (nuget_restore_cmd p))
        = (projects.map nuget_restore_cmd).map (localCmd env) := by
      rw [List.map_map]
      rfl
    have hall : ∀ c ∈ projects.map nuget_restore_cmd, env.shFails c = false := by
      intro c hc
      rcases List.mem_map.1 hc with ⟨p, hp, rfl⟩
      exact h p hp
    rw [update_packages, hmap, runSeq_local_ok env _ hall, restore_trace, List.map_map]
    rfl
  · decide

/-- C6 witness: in the all-success world, update_packages emits the ten
restore invocations and succeeds. -/
theorem update_packages_one_restore_per_project_witness :
    (∀ p ∈ projects, env0.shFails (nuget_restore_cmd p) = false)
    ∧ update_packages env0 = (restore_trace, true) :=
  ⟨fun _ _ => rfl, (update_packages_one_restore_per_project env0 (fun _ _ => rfl)).1⟩

/-- C8: when the restore invocation for some project fails after all earlier
ones succeeded, the failure propagates out of update_packages (the result is
an exception), the invocations already issued for earlier projects remain in
the trace, and no invocation is issued for any later project. -/
theorem update_packages_abort_on_failure (env : Env) (pre post : List String) (bad : String)
    (hsplit : projects = pre ++ bad :: post)
    (hpre : ∀ p ∈ pre, env.shFails (nuget_restore_cmd p) = false)
    (hbad : env.shFails (nuget_restore_cmd bad) = true) :
    update_packages env
      = (pre.map (fun p => Event.sh (nuget_restore_cmd p))
          ++ [Event.sh (nuget_restore_cmd bad)], false) := by
  have h1 : projects.map (fun p => localCmd env (nuget_restore_cmd p))
      = (pre.map nuget_restore_cmd
          ++ nuget_restore_cmd bad :: post.map nuget_restore_cmd).map (localCmd env) := by
    rw [hsplit]
    simp [List.map_append, List.map_map, Function.comp]
    rfl
  have hallpre : ∀ c ∈ pre.map nuget_restore_cmd, env.shFails c = false := by
    intro c hc
    rcases List.mem_map.1 hc with ⟨p, hp, rfl⟩
    exact hpre p hp
  rw [update_packages, h1, runSeq_local_abort env _ _ _ hallpre hbad, List.map_map]
  rfl

/-- C8 witness: in a world where exactly the restore for OfficeConsole
fails, update_packages emits the restores for the two earlier projects and
the failing one, emits nothing for the seven later projects, and fails. -/
theorem update_packages_abort_on_failure_witness :
    update_packages envNugetFail
      = (["MultiClientConsole", "ServerConsole"].map (fun p => Event.sh (nuget_restore_cmd p))
          ++ [Event.sh (nuget_restore_cmd "OfficeConsole")], false) :=
  update_packages_abort_on_failure envNugetFail ["MultiClientConsole", "ServerConsole"]
    ["UaclServer", "UaclClient", "UaclUtils", "TestServerConsole", "TestOfficeConsole",
     "TestUaclClient", "TestUaclUtils"] "OfficeConsole" (by decide) (by decide) (by decide)

/-- C1 counterexample: in a world where exactly the server-console startup
script fails, the test task never invokes the stop script (zero stop
invocations, not one), refuting the claim that the stop script is invoked
exactly once regardless of a failure when starting the server application:
start_sc is invoked before the try block, so its exception propagates
before stop is reached. -/
theorem test_stop_skipped_when_start_fails :
    (test envStartFail).1.count (Event.sh "tools\\stop.bat") = 0
    ∧ (test envStartFail).2 = false := by
  decide

/-- C1 amended: whenever starting the server application succeeds, the test
task invokes the stop script exactly once, regardless of whether any
individual test invocation raises or fails. -/
theorem test_stop_exactly_once_after_successful_start (env : Env)
    (h : env.shFails "tools\\start_application.bat ServerConsole" = false) :
    (test env).1.count (Event.sh "tools\\stop.bat") = 1 := by
  have hnot : Event.sh "tools\\stop.bat"
      ∉ (runSeq ((test_projects.map (fun t => nunit_cmd (test_dll_path t))).map
          (localCmd env))).1 := by
    intro hm
    have h2 := runSeq_local_trace_mem env _ _ hm
    revert h2
    decide
  rw [test_trace_shape env h,
    List.count_cons_of_ne (by decide), List.count_append,
    List.count_eq_zero.mpr hnot]
  simp

/-- C1 amended witness: in a world where every NUnit invocation fails but
the startup script succeeds, the test task still invokes the stop script
exactly once. -/
theorem test_stop_exactly_once_after_successful_start_witness :
    envTestsFail.shFails "tools\\start_application.bat ServerConsole" = false
    ∧ (test envTestsFail).1.count (Event.sh "tools\\stop.bat") = 1 :=
  ⟨rfl, test_stop_exactly_once_after_successful_start envTestsFail rfl⟩

/-- C5: every failure raised by a test-runner invocation inside the test
loop is caught by the bare except and discarded, so when starting the
server and the stop script both succeed the test task reports success, no
matter which test invocations fail. -/
theorem test_suppresses_test_failures (env : Env)
    (h1 : env.shFails "tools\\start_application.bat ServerConsole" = false)
    (h2 : env.shFails "tools\\stop.bat" = false) :
    (test env).2 = true := by
  rw [test, start_sc, localCmd, h1, stop, localCmd, h2]
  simp [chain, caught]

/-- C5 witness: in a world where every NUnit invocation fails, the test task
nevertheless reports success. -/
theorem test_suppresses_test_failures_witness :
    envTestsFail.shFails "tools\\start_application.bat ServerConsole" = false
    ∧ envTestsFail.shFails "tools\\stop.bat" = false
    ∧ (test envTestsFail).2 = true :=
  ⟨rfl, rfl, test_suppresses_test_failures envTestsFail rfl rfl⟩

/-- C10: only errors raised inside the test loop are suppressed: when the
stop script invocation itself fails, that failure propagates out of the
test task to the caller. -/
theorem test_stop_failure_propagates (env : Env)
    (h1 : env.shFails "tools\\start_application.bat ServerConsole" = false)
    (h2 : env.shFails "tools\\stop.bat" = true) :
    (test env).2 = false := by
  rw [test, start_sc, localCmd, h1, stop, localCmd, h2]
  simp [chain, caught]

/-- C10 witness: in a world where exactly the stop script fails, the test
task fails. -/
theorem test_stop_failure_propagates_witness :
    envStopFail.shFails "tools\\start_application.bat ServerConsole" = false
    ∧ envStopFail.shFails "tools\\stop.bat" = true
    ∧ (test envStopFail).2 = false :=
  ⟨by decide, by decide, test_stop_failure_propagates envStopFail (by decide) (by decide)⟩
